import Mathlib

/-!
Verification of the SME Sustainability Pulse emissions and recommendation
engine.  The data model and operations below are shallowly embedded from
the repository: the PostgreSQL schema (`documents.sql`,
`selected_vendors.sql`), the React dashboard (`RecommendationCard.tsx`),
and, for the calculation/recommendation engine whose Python sources are
not shipped, definitions modelled from the specification's own formulas.
All arithmetic is over `ℚ` (the engine works on exact decimal inputs).
-/

namespace SmePulse

/-! ### Transport modes and shipping groups

The schema constrains `parsed_shipping.transport_mode` to
`('truck','ship','air','rail')`. -/

inductive TransportMode
  | truck
  | rail
  | ship
  | air
  deriving DecidableEq

/-- The four modes the Shipment-Mode-Change generator evaluates. -/
def allModes : List TransportMode :=
  [TransportMode.truck, TransportMode.rail, TransportMode.ship, TransportMode.air]

/-- A deduplicated shipping-activity group (fingerprint over
weight, distance and current transport mode), as in `parsed_shipping`. -/
structure ShipGroup where
  weight_tons : ℚ
  distance_miles : ℚ
  mode : TransportMode
  deriving DecidableEq

/-- Modelled from the spec: fixed feasibility weight per mode
\x7brail:0.70, ship:0.50, truck:0.95, air:0.95\x7d (spec section 4.3c). -/
def feasibility : TransportMode → ℚ
  | TransportMode.rail => 70 / 100
  | TransportMode.ship => 50 / 100
  | TransportMode.truck => 95 / 100
  | TransportMode.air => 95 / 100

/-- Modelled from the spec: emissions of a shipping group under mode `m`
are ton-distance times the mode factor, in kg CO2e
(`kg_co2e = weight_tons * distance_miles * factor m`). -/
def modeEmissionsKg (factor : TransportMode → ℚ) (g : ShipGroup) (m : TransportMode) : ℚ :=
  g.weight_tons * g.distance_miles * factor m

/-- Saving (in metric tons CO2e) obtained by switching group `g` from its
current mode to mode `m`. -/
def modeSavingT (factor : TransportMode → ℚ) (g : ShipGroup) (m : TransportMode) : ℚ :=
  (modeEmissionsKg factor g g.mode - modeEmissionsKg factor g m) / 1000

/-- Weighted score of the mode-change candidate `m` for group `g`:
potential saving times the feasibility weight of the proposed mode. -/
def modeWeightedScore (factor : TransportMode → ℚ) (g : ShipGroup) (m : TransportMode) : ℚ :=
  modeSavingT factor g m * feasibility m

/-- A Shipment-Mode-Change candidate recommendation. -/
structure ModeChangeCand where
  mode : TransportMode
  potential_saving_tco2e : ℚ
  weighted_score : ℚ
  deriving DecidableEq

/-- First element of the list minimizing `f` (the head wins ties),
`none` on the empty list. -/
def argminBy {α : Type} (f : α → ℚ) : List α → Option α
  | [] => none
  | x :: xs => some (xs.foldl (fun b a => if f a < f b then a else b) x)

/-- Modelled from the spec (section 4.3c, Shipment-Mode-Change generator;
the Python `dashboard_api/recommendations.py` is not in the tree):
evaluate emissions under every mode, pick the mode distinct from the
current one minimizing emissions, and emit the candidate only if its
weighted score is positive. -/
def genShipmentModeChange (factor : TransportMode → ℚ) (g : ShipGroup) :
    Option ModeChangeCand :=
  match argminBy (modeEmissionsKg factor g) (allModes.filter (fun m => m ≠ g.mode)) with
  | none => none
  | some m =>
    let saving := modeSavingT factor g m
    let w := saving * feasibility m
    if 0 < w then some ⟨m, saving, w⟩ else none

/-- Modelled from the spec: EPA-style ton-mile factors in kg CO2e per
ton-mile.  The spec pins truck = 0.161 and rail = 0.025 (Scenario A);
ship and air are modelled from the EPA tables the README cites. -/
def epaModeFactor : TransportMode → ℚ
  | TransportMode.truck => 161 / 1000
  | TransportMode.rail => 25 / 1000
  | TransportMode.ship => 48 / 1000
  | TransportMode.air => 1266 / 1000

/-- The element returned by the fold inside `argminBy` is a member of
`x :: xs` and minimizes `f` over `x :: xs`. -/
lemma argminBy_fold_spec {α : Type} (f : α → ℚ) (xs : List α) (x : α) :
    xs.foldl (fun b a => if f a < f b then a else b) x ∈ x :: xs ∧
    ∀ y ∈ x :: xs, f (xs.foldl (fun b a => if f a < f b then a else b) x) ≤ f y := by
  induction xs generalizing x with
  | nil => simp
  | cons a as ih =>
    have key := ih (if f a < f x then a else x)
    constructor
    · have h1 := key.1
      simp only [List.foldl]
      rcases List.mem_cons.mp h1 with h | h
      · rw [h]
        by_cases hfa : f a < f x
        · simp [hfa]
        · simp [hfa]
      · simp [h]
    · intro y hy
      simp only [List.mem_cons] at hy
      have hmin := key.2
      have hx' := hmin (if f a < f x then a else x) (List.mem_cons_self _ _)
      simp only [List.foldl] at hx' ⊢
      rcases hy with hyx | hya | hy
      · rw [hyx]
        by_cases hfa : f a < f x
        · simp only [if_pos hfa] at hx' ⊢
          exact le_trans hx' (le_of_lt hfa)
        · simp only [if_neg hfa] at hx' ⊢
          exact hx'
      · rw [hya]
        by_cases hfa : f a < f x
        · simp only [if_pos hfa] at hx' ⊢
          exact hx'
        · simp only [if_neg hfa] at hx' ⊢
          exact le_trans hx' (not_lt.mp hfa)
      · exact hmin y (List.mem_cons_of_mem _ hy)

/-- `argminBy` returns a member of the list that minimizes `f`. -/
lemma argminBy_spec {α : Type} (f : α → ℚ) (l : List α) (m : α)
    (h : argminBy f l = some m) : m ∈ l ∧ ∀ y ∈ l, f m ≤ f y := by
  cases l with
  | nil => simp [argminBy] at h
  | cons x xs =>
    simp only [argminBy, Option.some.injEq] at h
    subst h
    exact argminBy_fold_spec f xs x

/-- Soundness of the Shipment-Mode-Change generator: an emitted candidate
proposes a mode distinct from the current one that minimizes emissions
(hence maximizes the potential saving) over all four modes, and its
weighted score is positive. -/
lemma genShipmentModeChange_sound (factor : TransportMode → ℚ) (g : ShipGroup)
    (c : ModeChangeCand) (h : genShipmentModeChange factor g = some c) :
    c.mode ≠ g.mode ∧ c.mode ∈ allModes ∧
    (∀ m ∈ allModes, m ≠ g.mode →
      modeEmissionsKg factor g c.mode ≤ modeEmissionsKg factor g m) ∧
    (∀ m ∈ allModes, m ≠ g.mode →
      modeSavingT factor g m ≤ c.potential_saving_tco2e) ∧
    c.potential_saving_tco2e = modeSavingT factor g c.mode ∧
    c.weighted_score = c.potential_saving_tco2e * feasibility c.mode ∧
    0 < c.weighted_score := by
  unfold genShipmentModeChange at h
  cases harg : argminBy (modeEmissionsKg factor g)
      (allModes.filter (fun m => m ≠ g.mode)) with
  | none => rw [harg] at h; exact absurd h (by simp)
  | some m =>
    rw [harg] at h
    simp only at h
    by_cases hw : 0 < modeSavingT factor g m * feasibility m
    · rw [if_pos hw] at h
      have hc : c = ⟨m, modeSavingT factor g m, modeSavingT factor g m * feasibility m⟩ :=
        (Option.some.injEq _ _ ▸ h).symm
      obtain ⟨hmem, hmin⟩ := argminBy_spec _ _ _ harg
      rw [List.mem_filter] at hmem
      have hne : m ≠ g.mode := by simpa using hmem.2
      subst hc
      refine ⟨hne, hmem.1, ?_, ?_, rfl, rfl, hw⟩
      · intro m' hm' hne'
        exact hmin m' (List.mem_filter.mpr ⟨hm', by simpa using hne'⟩)
      · intro m' hm' hne'
        have hle := hmin m' (List.mem_filter.mpr ⟨hm', by simpa using hne'⟩)
        unfold modeSavingT
        linarith
    · rw [if_neg hw] at h
      exact absurd h (by simp)

/-- The shipping group of spec Scenario A: 10 tons over 500 miles,
currently moved by truck. -/
def scenarioAGroup : ShipGroup := ⟨10, 500, TransportMode.truck⟩

/-- The candidate Scenario A expects: switch to rail, saving 0.68 tCO2e,
weighted score 0.476. -/
def scenarioACand : ModeChangeCand := ⟨TransportMode.rail, 17 / 25, 119 / 250⟩

/-- C2 (amended): the Shipment-Mode-Change generator selects a mode
distinct from the current one minimizing emissions over the four modes;
the selected candidate's potential saving (not its weighted score, since
feasibility weights differ per mode) is the maximum among all
non-current-mode candidates; a candidate is emitted only if its weighted
score `potential_saving * feasibility` is positive; and on Scenario A
(10 tons, 500 miles, currently truck, factors truck 0.161 and rail 0.025
kg CO2e per ton-mile) it proposes rail with a saving of 0.68 tCO2e and a
weighted score of 0.476. -/
theorem shipment_mode_change_correct :
    (∀ (factor : TransportMode → ℚ) (g : ShipGroup) (c : ModeChangeCand),
        genShipmentModeChange factor g = some c →
          c.mode ≠ g.mode ∧
          (∀ m ∈ allModes, m ≠ g.mode →
            modeEmissionsKg factor g c.mode ≤ modeEmissionsKg factor g m) ∧
          (∀ m ∈ allModes, m ≠ g.mode →
            modeSavingT factor g m ≤ c.potential_saving_tco2e) ∧
          c.potential_saving_tco2e = modeSavingT factor g c.mode ∧
          c.weighted_score = c.potential_saving_tco2e * feasibility c.mode ∧
          0 < c.weighted_score) ∧
    genShipmentModeChange epaModeFactor scenarioAGroup = some scenarioACand := by
  constructor
  · intro factor g c h
    obtain ⟨h1, _, h3, h4, h5, h6, h7⟩ := genShipmentModeChange_sound factor g c h
    exact ⟨h1, h3, h4, h5, h6, h7⟩
  · simp [scenarioAGroup, scenarioACand, genShipmentModeChange, argminBy, allModes,
      modeEmissionsKg, modeSavingT, feasibility, epaModeFactor, List.filter, List.foldl]
    norm_num

/-- Witness for C2's amended theorem at Scenario A: the generator emits
the rail candidate, whose proposed mode differs from the current truck
mode and whose weighted score is positive. -/
theorem shipment_mode_change_correct_witness :
    genShipmentModeChange epaModeFactor scenarioAGroup = some scenarioACand ∧
    scenarioACand.mode ≠ scenarioAGroup.mode ∧
    0 < scenarioACand.weighted_score := by
  have h := shipment_mode_change_correct
  have hA := h.2
  have hg := h.1 epaModeFactor scenarioAGroup scenarioACand hA
  exact ⟨hA, hg.1, hg.2.2.2.2.2⟩

/-- The counterexample group for the literal C2 claim: the same 10-ton,
500-mile shipment but currently moved by air freight. -/
def airGroup : ShipGroup := ⟨10, 500, TransportMode.air⟩

/-- The candidate the generator emits for `airGroup` under the modelled
EPA factor table: rail, saving 6.205 tCO2e, weighted score 4.3435. -/
def airGroupCand : ModeChangeCand := ⟨TransportMode.rail, 6205 / 1000, 43435 / 10000⟩

/-- C2 counterexample: as literally stated the claim is false.  For the
group currently shipping by air, the generator (which picks the mode
minimizing emissions, per the spec's algorithm) emits the rail candidate,
yet the truck candidate — also a non-current mode — has a strictly
greater weighted score (5.24875 versus 4.3435), because truck's
feasibility weight 0.95 exceeds rail's 0.70.  So the selected
candidate's weighted score is not the maximum among all non-current-mode
candidates. -/
theorem shipment_mode_change_weighted_not_max :
    genShipmentModeChange epaModeFactor airGroup = some airGroupCand ∧
    TransportMode.truck ≠ airGroup.mode ∧
    airGroupCand.weighted_score <
      modeWeightedScore epaModeFactor airGroup TransportMode.truck := by
  refine ⟨?_, by simp [airGroup], ?_⟩
  · simp [airGroup, airGroupCand, genShipmentModeChange, argminBy, allModes,
      modeEmissionsKg, modeSavingT, feasibility, epaModeFactor, List.filter, List.foldl]
    norm_num
  · simp only [airGroup, airGroupCand, modeWeightedScore, modeSavingT,
      modeEmissionsKg, feasibility, epaModeFactor]
    norm_num

/-! ### Vendors and the Closer-Hauler generator

The `vendors` table has `category`, `carbon_intensity >= 0`,
`sustainability_score` between 0 and 100, and a nullable
`distance_km_from_sme`. -/

structure Vendor where
  vendor_id : String
  category : String
  carbon_intensity : ℚ
  sustainability_score : ℚ
  distance_km_from_sme : Option ℚ
  deriving DecidableEq

/-- The vendor category the Closer-Hauler generator matches against. -/
def logisticsCategory : String := "Logistics"

/-- Emissions (kg CO2e) of hauling `weight` tons over `dist` at the
per-ton-distance factor of the group's current mode. -/
def distanceEmissionsKg (factor weight dist : ℚ) : ℚ := weight * dist * factor

/-- A Closer-Hauler candidate recommendation. -/
structure HaulerCand where
  vendor_id : String
  potential_saving_tco2e : ℚ
  raw_score : ℚ
  deriving DecidableEq

/-- Modelled from the spec (section 4.3a, Closer-Hauler generator; the
Python `dashboard_api/recommendations.py` is not in the tree): for a
shipping-activity group and a Logistics-category vendor, emit a
candidate only if the vendor's distance is known and strictly less than
the group's current distance; the saving is the emissions difference at
the two distances under the same mode (linear in distance) and the raw
score weights it by `sustainability_score / 100`. -/
def genCloserHauler (factor : ℚ) (g : ShipGroup) (v : Vendor) : Option HaulerCand :=
  if v.category = logisticsCategory then
    match v.distance_km_from_sme with
    | none => none
    | some d =>
      if d < g.distance_miles then
        let saving := (distanceEmissionsKg factor g.weight_tons g.distance_miles -
          distanceEmissionsKg factor g.weight_tons d) / 1000
        some ⟨v.vendor_id, saving, saving * (v.sustainability_score / 100)⟩
      else none
  else none

/-- The shipping group of spec Scenario B: current distance 500. -/
def scenarioBGroup : ShipGroup := ⟨10, 500, TransportMode.truck⟩

/-- Scenario B's near vendor, 50 km away. -/
def scenarioBNearVendor : Vendor := ⟨"V1", logisticsCategory, 0, 80, some 50⟩

/-- Scenario B's far vendor, 600 km away. -/
def scenarioBFarVendor : Vendor := ⟨"V2", logisticsCategory, 0, 80, some 600⟩

/-- C3: for every shipping-activity group (with positive weight and a
positive mode factor) and every Logistics-category vendor, the
Closer-Hauler generator emits a candidate iff the vendor's distance is
known and strictly below the current distance; every emitted candidate
has a strictly positive potential saving; and in Scenario B the vendor
at 50 km against a current distance of 500 yields a candidate while the
vendor at 600 km yields none. -/
theorem closer_hauler_correct :
    (∀ (factor : ℚ) (g : ShipGroup) (v : Vendor),
        v.category = logisticsCategory → 0 < factor → 0 < g.weight_tons →
          ((genCloserHauler factor g v).isSome ↔
            ∃ d, v.distance_km_from_sme = some d ∧ d < g.distance_miles) ∧
          ∀ c, genCloserHauler factor g v = some c → 0 < c.potential_saving_tco2e) ∧
    (genCloserHauler (161 / 1000) scenarioBGroup scenarioBNearVendor).isSome = true ∧
    genCloserHauler (161 / 1000) scenarioBGroup scenarioBFarVendor = none := by
  refine ⟨?_, ?_, ?_⟩
  · intro factor g v hcat hf hw
    unfold genCloserHauler
    rw [if_pos hcat]
    cases hd : v.distance_km_from_sme with
    | none => simp
    | some d =>
      dsimp only
      by_cases hlt : d < g.distance_miles
      · rw [if_pos hlt]
        constructor
        · simp [hlt]
        · intro c hc
          have hc' : c.potential_saving_tco2e =
              (distanceEmissionsKg factor g.weight_tons g.distance_miles -
                distanceEmissionsKg factor g.weight_tons d) / 1000 := by
            rw [← Option.some.injEq] at hc
            simp only [Option.some.injEq] at hc
            rw [← hc]
          rw [hc']
          unfold distanceEmissionsKg
          have hstep : g.weight_tons * d * factor <
              g.weight_tons * g.distance_miles * factor := by
            have := mul_lt_mul_of_pos_left hlt hw
            exact mul_lt_mul_of_pos_right this hf
          linarith
      · rw [if_neg hlt]
        simp [hlt]
  · simp [genCloserHauler, scenarioBGroup, scenarioBNearVendor, logisticsCategory,
      distanceEmissionsKg]
    norm_num
  · simp [genCloserHauler, scenarioBGroup, scenarioBFarVendor, logisticsCategory,
      distanceEmissionsKg]
    norm_num

/-- Witness for C3 at Scenario B: the 50 km vendor produces a candidate
saving 0.7245 tCO2e, which is strictly positive. -/
theorem closer_hauler_correct_witness :
    genCloserHauler (161 / 1000) scenarioBGroup scenarioBNearVendor =
      some ⟨"V1", 1449 / 2000, 1449 / 2500⟩ ∧
    (0 : ℚ) < 1449 / 2000 := by
  have hgen : genCloserHauler (161 / 1000) scenarioBGroup scenarioBNearVendor =
      some ⟨"V1", 1449 / 2000, 1449 / 2500⟩ := by
    simp [genCloserHauler, scenarioBGroup, scenarioBNearVendor, logisticsCategory,
      distanceEmissionsKg]
    norm_num
  have hpos := (closer_hauler_correct.1 (161 / 1000) scenarioBGroup scenarioBNearVendor
    rfl (by norm_num) (by norm_num [scenarioBGroup])).2 _ hgen
  exact ⟨hgen, hpos⟩

/-! ### Score Normalizer -/

/-- Modelled from the spec (section 4.4, Score Normalizer): per
criterion, min-max scale the raw scores to the unit interval; when every
score in the criterion ties (`max = min`), every candidate normalizes to
exactly 1 instead of dividing by zero. -/
def minMaxNormalize (l : List ℚ) : List ℚ :=
  match l with
  | [] => []
  | x :: xs =>
    let mn := xs.foldl min x
    let mx := xs.foldl max x
    if mx = mn then (x :: xs).map (fun _ => 1)
    else (x :: xs).map (fun s => (s - mn) / (mx - mn))

/-- The fold computing the running minimum returns a member of
`x :: xs` that bounds every element from below. -/
lemma foldl_min_spec (xs : List ℚ) (x : ℚ) :
    xs.foldl min x ∈ x :: xs ∧ ∀ y ∈ x :: xs, xs.foldl min x ≤ y := by
  induction xs generalizing x with
  | nil => simp
  | cons a as ih =>
    have key := ih (min x a)
    simp only [List.foldl]
    constructor
    · rcases List.mem_cons.mp key.1 with h | h
      · rcases min_choice x a with hm | hm
        · rw [h, hm]; simp
        · rw [h, hm]; simp
      · simp [h]
    · intro y hy
      rcases List.mem_cons.mp hy with rfl | hy'
      · exact le_trans (key.2 _ (List.mem_cons_self _ _)) (min_le_left _ _)
      · rcases List.mem_cons.mp hy' with rfl | hy''
        · exact le_trans (key.2 _ (List.mem_cons_self _ _)) (min_le_right _ _)
        · exact key.2 y (List.mem_cons_of_mem _ hy'')

/-- The fold computing the running maximum returns a member of
`x :: xs` that bounds every element from above. -/
lemma foldl_max_spec (xs : List ℚ) (x : ℚ) :
    xs.foldl max x ∈ x :: xs ∧ ∀ y ∈ x :: xs, y ≤ xs.foldl max x := by
  induction xs generalizing x with
  | nil => simp
  | cons a as ih =>
    have key := ih (max x a)
    simp only [List.foldl]
    constructor
    · rcases List.mem_cons.mp key.1 with h | h
      · rcases max_choice x a with hm | hm
        · rw [h, hm]; simp
        · rw [h, hm]; simp
      · simp [h]
    · intro y hy
      rcases List.mem_cons.mp hy with rfl | hy'
      · exact le_trans (le_max_left _ _) (key.2 _ (List.mem_cons_self _ _))
      · rcases List.mem_cons.mp hy' with rfl | hy''
        · exact le_trans (le_max_right _ _) (key.2 _ (List.mem_cons_self _ _))
        · exact key.2 y (List.mem_cons_of_mem _ hy'')

/-- C4: the Score Normalizer min-max scales each criterion
independently.  With at least two distinct raw scores (`min ≠ max`) the
output is the affine map `(s - min) / (max - min)` over the whole list,
so the minimum maps to 0 and the maximum to 1, both of which occur in
the output; when all raw scores tie (`max = min`), including the
single-candidate case, every normalized score is exactly 1 and the
dividing branch is never taken. -/
theorem score_normalizer_correct :
    (∀ (x : ℚ) (xs : List ℚ),
        (xs.foldl min x ≠ xs.foldl max x →
          minMaxNormalize (x :: xs) =
            (x :: xs).map (fun s =>
              (s - xs.foldl min x) / (xs.foldl max x - xs.foldl min x)) ∧
          (0 : ℚ) ∈ minMaxNormalize (x :: xs) ∧
          (1 : ℚ) ∈ minMaxNormalize (x :: xs)) ∧
        (xs.foldl min x = xs.foldl max x →
          ∀ y ∈ minMaxNormalize (x :: xs), y = 1)) ∧
    (∀ s : ℚ, minMaxNormalize [s] = [1]) := by
  constructor
  · intro x xs
    constructor
    · intro hne
      have hmap : minMaxNormalize (x :: xs) =
          (x :: xs).map (fun s =>
            (s - xs.foldl min x) / (xs.foldl max x - xs.foldl min x)) := by
        unfold minMaxNormalize
        dsimp only
        rw [if_neg (Ne.symm hne)]
      refine ⟨hmap, ?_, ?_⟩
      · rw [hmap]
        refine List.mem_map.mpr ⟨xs.foldl min x, (foldl_min_spec xs x).1, ?_⟩
        simp
      · rw [hmap]
        refine List.mem_map.mpr ⟨xs.foldl max x, (foldl_max_spec xs x).1, ?_⟩
        exact div_self (sub_ne_zero.mpr (Ne.symm hne))
    · intro heq y hy
      unfold minMaxNormalize at hy
      dsimp only at hy
      rw [if_pos heq.symm] at hy
      rcases List.mem_map.mp hy with ⟨s, _, hs⟩
      exact hs.symm
  · intro s
    unfold minMaxNormalize
    simp

/-- Witness for C4: on the two-score criterion [1, 3] the normalizer
sends the minimum to 0 and the maximum to 1, and on the
single-candidate criterion [5] it yields exactly [1]. -/
theorem score_normalizer_correct_witness :
    (0 : ℚ) ∈ minMaxNormalize [1, 3] ∧
    (1 : ℚ) ∈ minMaxNormalize [1, 3] ∧
    minMaxNormalize [(5 : ℚ)] = [1] := by
  have h := score_normalizer_correct
  have h13 := (h.1 1 [3]).1 (by norm_num)
  exact ⟨h13.2.1, h13.2.2, h.2 5⟩

/-! ### Diversity Reranker (MMR)

Modelled from the spec (section 4.5): greedy selection maximizing
`lam * relevance - (1 - lam) * max_similarity_to_selected` until the
configured K is reached or the candidates are exhausted.  The pairwise
similarity (cosine over feature vectors in the engine) is kept as a
parameter `sim`, since the reranker's selection invariants hold for any
similarity function. -/

structure MmrCand where
  relevance : ℚ
  features : List ℚ
  deriving DecidableEq

/-- Greatest similarity between `c` and any already-selected candidate
(0 when nothing is selected yet). -/
def maxSimToSelected (sim : MmrCand → MmrCand → ℚ) (c : MmrCand)
    (sel : List MmrCand) : ℚ :=
  sel.foldl (fun acc s => max acc (sim c s)) 0

/-- The MMR objective for candidate `c` given the selected list. -/
def mmrScore (lam : ℚ) (sim : MmrCand → MmrCand → ℚ) (sel : List MmrCand)
    (c : MmrCand) : ℚ :=
  lam * c.relevance - (1 - lam) * maxSimToSelected sim c sel

/-- Extract an element maximizing `f` (earlier elements win ties),
returning it together with the remaining list. -/
def argmaxExtract {α : Type} (f : α → ℚ) : List α → Option (α × List α)
  | [] => none
  | x :: xs =>
    match argmaxExtract f xs with
    | none => some (x, [])
    | some (b, rest) => if f x < f b then some (b, x :: rest) else some (x, b :: rest)

/-- One greedy MMR pass: take up to `k` more candidates from `rem`,
accumulating selections (most recent first) in `sel`. -/
def mmrSelectAux (lam : ℚ) (sim : MmrCand → MmrCand → ℚ) :
    Nat → List MmrCand → List MmrCand → List MmrCand
  | 0, _, sel => sel.reverse
  | Nat.succ k, rem, sel =>
    match argmaxExtract (mmrScore lam sim sel) rem with
    | none => sel.reverse
    | some (b, rest) => mmrSelectAux lam sim k rest (b :: sel)

/-- Modelled from the spec (section 4.5): the MMR reranker's greedy
selection of at most `K` candidates per criterion. -/
def mmrSelect (lam : ℚ) (sim : MmrCand → MmrCand → ℚ) (K : Nat)
    (cands : List MmrCand) : List MmrCand :=
  mmrSelectAux lam sim K cands []

/-- `argmaxExtract` returns `none` only on the empty list. -/
lemma argmaxExtract_eq_none {α : Type} (f : α → ℚ) :
    ∀ l : List α, argmaxExtract f l = none → l = [] := by
  intro l h
  cases l with
  | nil => rfl
  | cons x xs =>
    simp only [argmaxExtract] at h
    cases hm : argmaxExtract f xs with
    | none => rw [hm] at h; simp at h
    | some p => rw [hm] at h; cases p with | mk b rest => by_cases hf : f x < f b <;>
        simp [hf] at h

/-- The element extracted by `argmaxExtract`, together with the rest,
permutes the input list. -/
lemma argmaxExtract_perm {α : Type} (f : α → ℚ) :
    ∀ (l : List α) (b : α) (rest : List α),
      argmaxExtract f l = some (b, rest) → (b :: rest).Perm l := by
  intro l
  induction l with
  | nil => intro b rest h; simp [argmaxExtract] at h
  | cons x xs ih =>
    intro b rest h
    simp only [argmaxExtract] at h
    cases hm : argmaxExtract f xs with
    | none =>
      rw [hm] at h
      simp only [Option.some.injEq, Prod.mk.injEq] at h
      obtain ⟨rfl, rfl⟩ := h
      have : xs = [] := argmaxExtract_eq_none f xs hm
      rw [this]
    | some p =>
      obtain ⟨b', rest'⟩ := p
      rw [hm] at h
      dsimp only at h
      have hperm := ih b' rest' hm
      by_cases hf : f x < f b'
      · rw [if_pos hf] at h
        simp only [Option.some.injEq, Prod.mk.injEq] at h
        obtain ⟨rfl, rfl⟩ := h
        exact (List.Perm.swap x b' rest').trans (hperm.cons x)
      · rw [if_neg hf] at h
        simp only [Option.some.injEq, Prod.mk.injEq] at h
        obtain ⟨rfl, rfl⟩ := h
        exact hperm.cons x

/-- Length and multiset bounds for the greedy MMR pass: the output holds
`sel` plus `min k rem.length` further candidates, all drawn (with
multiplicity) from `sel + rem`. -/
lemma mmrSelectAux_spec (lam : ℚ) (sim : MmrCand → MmrCand → ℚ) :
    ∀ (k : Nat) (rem sel : List MmrCand),
      (mmrSelectAux lam sim k rem sel).length = min k rem.length + sel.length ∧
      ((mmrSelectAux lam sim k rem sel : List MmrCand) : Multiset MmrCand) ≤
        (sel : Multiset MmrCand) + (rem : Multiset MmrCand) := by
  intro k
  induction k with
  | zero =>
    intro rem sel
    refine ⟨by simp [mmrSelectAux], ?_⟩
    rw [mmrSelectAux, Multiset.coe_reverse]
    exact le_add_right le_rfl
  | succ k ih =>
    intro rem sel
    rw [mmrSelectAux]
    cases hm : argmaxExtract (mmrScore lam sim sel) rem with
    | none =>
      have : rem = [] := argmaxExtract_eq_none _ rem hm
      subst this
      simp
    | some p =>
      obtain ⟨b, rest⟩ := p
      have hperm := argmaxExtract_perm _ rem b rest hm
      have hlen : rem.length = rest.length + 1 := by
        have := hperm.length_eq
        simpa using this.symm
      obtain ⟨ihlen, ihle⟩ := ih rest (b :: sel)
      constructor
      · rw [ihlen, hlen, List.length_cons, Nat.succ_min_succ]
        omega
      · refine le_trans ihle ?_
        have : ((b :: sel : List MmrCand) : Multiset MmrCand) +
            (rest : Multiset MmrCand) =
            (sel : Multiset MmrCand) + ((b :: rest : List MmrCand) : Multiset MmrCand) := by
          rw [← Multiset.cons_coe, ← Multiset.cons_coe, Multiset.cons_add, Multiset.add_cons]
        rw [this]
        have hco : ((b :: rest : List MmrCand) : Multiset MmrCand) =
            (rem : Multiset MmrCand) := Multiset.coe_eq_coe.mpr hperm
        rw [hco]

/-- C5: for every candidate list, every configured K (and any relevance
trade-off and similarity function), the MMR reranker selects exactly
`min K n` candidates where `n` is the number of candidates — so it never
exceeds K and stops only at K or when candidates are exhausted — and it
never selects the same candidate twice: the selection is a
sub-multiset of the input, hence duplicate-free whenever the input is. -/
theorem mmr_select_bounded_no_repeat :
    ∀ (lam : ℚ) (sim : MmrCand → MmrCand → ℚ) (K : Nat) (cands : List MmrCand),
      (mmrSelect lam sim K cands).length = min K cands.length ∧
      (mmrSelect lam sim K cands).length ≤ K ∧
      ((mmrSelect lam sim K cands : List MmrCand) : Multiset MmrCand) ≤
        (cands : Multiset MmrCand) ∧
      (cands.Nodup → (mmrSelect lam sim K cands).Nodup) := by
  intro lam sim K cands
  obtain ⟨hlen, hle⟩ := mmrSelectAux_spec lam sim K cands []
  have hlen' : (mmrSelect lam sim K cands).length = min K cands.length := by
    simpa [mmrSelect] using hlen
  have hle' : ((mmrSelect lam sim K cands : List MmrCand) : Multiset MmrCand) ≤
      (cands : Multiset MmrCand) := by
    simpa [mmrSelect] using hle
  refine ⟨hlen', ?_, hle', ?_⟩
  · rw [hlen']
    exact Nat.min_le_left _ _
  · intro hnd
    have : ((cands : List MmrCand) : Multiset MmrCand).Nodup :=
      Multiset.coe_nodup.mpr hnd
    exact Multiset.coe_nodup.mp (Multiset.nodup_of_le hle' this)

/-- Witness for C5 at a concrete input: selecting K = 2 from three
candidates (with constant zero similarity) returns exactly two distinct
candidates drawn from the input. -/
theorem mmr_select_bounded_no_repeat_witness :
    (mmrSelect (7 / 10) (fun _ _ => 0) 2
        [⟨1, [1]⟩, ⟨2, [2]⟩, ⟨3, [3]⟩]).length = 2 ∧
    (mmrSelect (7 / 10) (fun _ _ => 0) 2
        [⟨1, [1]⟩, ⟨2, [2]⟩, ⟨3, [3]⟩]).Nodup := by
  have h := mmr_select_bounded_no_repeat (7 / 10) (fun _ _ => 0) 2
    [⟨1, [1]⟩, ⟨2, [2]⟩, ⟨3, [3]⟩]
  refine ⟨?_, h.2.2.2 ?_⟩
  · rw [h.1]
    rfl
  · simp

/-! ### Activities and the Emission Calculator

The `activities` table admits six activity types; `scope` is NULL only
for water usage.  The `emissions` table keys each record by a UNIQUE
`activity_id` with `emissions_kg_co2e` and `emissions_metric_tons`. -/

inductive DisposalMethod
  | landfill
  | recycle
  | compost
  | incinerate
  deriving DecidableEq

/-- The six source-record variants behind an Activity (the schema's
`activity_type` CHECK constraint). -/
inductive ActivitySource
  | purchasedElectricity (kwh : ℚ)
  | stationaryFuelCombustion (fuel_type : String) (quantity : ℚ) (unit : String)
  | vehicleFuelUse (fuel_type : String) (quantity : ℚ) (unit : String)
  | transportationShipping (weight_tons : ℚ) (distance_miles : ℚ) (mode : TransportMode)
  | wasteGeneration (weight_kg : ℚ) (method : DisposalMethod)
  | waterUsage (volume : ℚ)
  deriving DecidableEq

structure Activity where
  activity_id : ℕ
  source : ActivitySource
  deriving DecidableEq

/-- Modelled from the spec: the Emission Factor Table, a static lookup
keyed by (activity type, fuel or mode, unit); a lookup may miss, in
which case the record is excluded (non-fatal). -/
structure FactorTable where
  electricityFactor : Option ℚ
  fuelFactor : String → String → Option ℚ
  modeFactor : TransportMode → Option ℚ
  wasteFactor : DisposalMethod → Option ℚ

/-- Modelled from the spec (section 4.1): shipping activities compute
ton-distance first (weight times distance); other activity types use
the quantity directly. -/
def baseQuantity : ActivitySource → ℚ
  | ActivitySource.purchasedElectricity kwh => kwh
  | ActivitySource.stationaryFuelCombustion _ q _ => q
  | ActivitySource.vehicleFuelUse _ q _ => q
  | ActivitySource.transportationShipping w d _ => w * d
  | ActivitySource.wasteGeneration w _ => w
  | ActivitySource.waterUsage v => v

/-- Factor lookup per source variant; water usage is non-GHG and never
resolves a factor, so it never produces an Emission. -/
def lookupFactor (ft : FactorTable) : ActivitySource → Option ℚ
  | ActivitySource.purchasedElectricity _ => ft.electricityFactor
  | ActivitySource.stationaryFuelCombustion f _ u => ft.fuelFactor f u
  | ActivitySource.vehicleFuelUse f _ u => ft.fuelFactor f u
  | ActivitySource.transportationShipping _ _ m => ft.modeFactor m
  | ActivitySource.wasteGeneration _ m => ft.wasteFactor m
  | ActivitySource.waterUsage _ => none

/-- A row of the `emissions` table. -/
structure EmissionRec where
  activity_id : ℕ
  emissions_kg_co2e : ℚ
  emissions_metric_tons : ℚ
  factor_used : ℚ
  deriving DecidableEq

/-- Modelled from the spec (section 4.1, Emission Calculator):
`kg_co2e = base_quantity * factor`, `metric_tons = kg_co2e / 1000`;
`none` when no factor matches (record excluded, flagged, non-fatal). -/
def calcEmission (ft : FactorTable) (a : Activity) : Option EmissionRec :=
  (lookupFactor ft a.source).map fun f =>
    ⟨a.activity_id, baseQuantity a.source * f, baseQuantity a.source * f / 1000, f⟩

/-- Replace-not-add semantics of the `emissions` table's UNIQUE
`activity_id`: inserting a record first drops every record with the
same `activity_id`. -/
def upsertEmission (store : List EmissionRec) (r : EmissionRec) : List EmissionRec :=
  r :: store.filter (fun e => e.activity_id ≠ r.activity_id)

/-- Modelled from the spec (section 4.1): recomputation for an Activity
replaces any prior Emission (idempotent upsert, not additive); a
missing factor leaves the store untouched. -/
def recomputeEmission (ft : FactorTable) (store : List EmissionRec) (a : Activity) :
    List EmissionRec :=
  match calcEmission ft a with
  | some r => upsertEmission store r
  | none => store

/-- A computed Emission carries its Activity's id. -/
lemma calcEmission_id (ft : FactorTable) (a : Activity) (r : EmissionRec)
    (h : calcEmission ft a = some r) : r.activity_id = a.activity_id := by
  unfold calcEmission at h
  rcases Option.map_eq_some'.mp h with ⟨f, _, hr⟩
  rw [← hr]

/-- Records surviving the upsert filter do not carry the upserted id. -/
lemma upsertEmission_countP (store : List EmissionRec) (r : EmissionRec) :
    (upsertEmission store r).countP (fun e => e.activity_id = r.activity_id) = 1 := by
  unfold upsertEmission
  rw [List.countP_cons]
  have h0 : (store.filter (fun e => e.activity_id ≠ r.activity_id)).countP
      (fun e => e.activity_id = r.activity_id) = 0 := by
    rw [List.countP_eq_zero]
    intro e he
    have := List.of_mem_filter he
    simpa using this
  rw [h0]
  simp

/-- C6: running the Emission Calculator on an Activity replaces any
prior Emission for that activity rather than adding a second one.
Recomputing twice from the same input is idempotent (in particular the
stored kg_co2e and factor_used are identical after the second run),
after a successful recomputation the store holds exactly one record for
that activity, and the at-most-one-record-per-activity invariant is
preserved for every activity id. -/
theorem emission_recompute_upsert :
    ∀ (ft : FactorTable) (store : List EmissionRec) (a : Activity),
      recomputeEmission ft (recomputeEmission ft store a) a =
        recomputeEmission ft store a ∧
      (∀ r, calcEmission ft a = some r →
        (recomputeEmission ft store a).countP
          (fun e => e.activity_id = a.activity_id) = 1) ∧
      (∀ i : ℕ, store.countP (fun e => e.activity_id = i) ≤ 1 →
        (recomputeEmission ft store a).countP (fun e => e.activity_id = i) ≤ 1) := by
  intro ft store a
  refine ⟨?_, ?_, ?_⟩
  · cases hc : calcEmission ft a with
    | none =>
      unfold recomputeEmission
      rw [hc]
    | some r =>
      unfold recomputeEmission
      rw [hc]
      dsimp only
      unfold upsertEmission
      congr 1
      rw [List.filter_cons]
      have hfalse : (decide (r.activity_id ≠ r.activity_id)) = false := by simp
      rw [hfalse]
      simp only [Bool.false_eq_true, if_false]
      rw [List.filter_filter]
      apply List.filter_congr
      intro e _
      simp
  · intro r hc
    unfold recomputeEmission
    rw [hc]
    have := upsertEmission_countP store r
    rwa [calcEmission_id ft a r hc] at this
  · intro i hi
    unfold recomputeEmission
    cases hc : calcEmission ft a with
    | none => exact hi
    | some r =>
      unfold upsertEmission
      rw [List.countP_cons]
      by_cases hid : r.activity_id = i
      · have h0 : (store.filter (fun e => e.activity_id ≠ r.activity_id)).countP
            (fun e => e.activity_id = i) = 0 := by
          rw [List.countP_eq_zero]
          intro e he
          have := List.of_mem_filter he
          simp only [decide_eq_true_eq] at this ⊢
          rw [← hid]
          simpa using this
        rw [h0]
        simp [hid]
      · have hle : (store.filter (fun e => e.activity_id ≠ r.activity_id)).countP
            (fun e => e.activity_id = i) ≤ store.countP (fun e => e.activity_id = i) :=
          (List.filter_sublist store).countP_le _
        have hcond : (decide (r.activity_id = i)) = false := by simp [hid]
        rw [hcond]
        simp only [Bool.false_eq_true, if_false]
        omega

/-- Witness for C6 at a concrete input: recomputing the electricity
activity (100 kWh at factor 0.4) into a store already holding a stale
record for the same activity leaves exactly one record for it, and a
second recomputation changes nothing. -/
theorem emission_recompute_upsert_witness :
    (recomputeEmission
        ⟨some (4 / 10), fun _ _ => none, fun _ => none, fun _ => none⟩
        [⟨1, 999, 999 / 1000, 1⟩]
        ⟨1, ActivitySource.purchasedElectricity 100⟩).countP
      (fun e => e.activity_id = 1) = 1 ∧
    recomputeEmission
        ⟨some (4 / 10), fun _ _ => none, fun _ => none, fun _ => none⟩
        (recomputeEmission
          ⟨some (4 / 10), fun _ _ => none, fun _ => none, fun _ => none⟩
          [⟨1, 999, 999 / 1000, 1⟩]
          ⟨1, ActivitySource.purchasedElectricity 100⟩)
        ⟨1, ActivitySource.purchasedElectricity 100⟩ =
      recomputeEmission
        ⟨some (4 / 10), fun _ _ => none, fun _ => none, fun _ => none⟩
        [⟨1, 999, 999 / 1000, 1⟩]
        ⟨1, ActivitySource.purchasedElectricity 100⟩ := by
  have h := emission_recompute_upsert
    ⟨some (4 / 10), fun _ _ => none, fun _ => none, fun _ => none⟩
    [⟨1, 999, 999 / 1000, 1⟩]
    ⟨1, ActivitySource.purchasedElectricity 100⟩
  exact ⟨h.2.1 _ rfl, h.1⟩

/-- C7: every Emission the calculator produces satisfies
`emissions_metric_tons = emissions_kg_co2e / 1000` exactly (hence within
1e-6), and every operation that creates or recomputes emissions
preserves the relation across the store. -/
theorem emission_tons_kg_relation :
    ∀ (ft : FactorTable) (a : Activity),
      (∀ r, calcEmission ft a = some r →
        r.emissions_metric_tons = r.emissions_kg_co2e / 1000 ∧
        |r.emissions_metric_tons - r.emissions_kg_co2e / 1000| ≤ 1 / 1000000) ∧
      (∀ store : List EmissionRec,
        (∀ e ∈ store, e.emissions_metric_tons = e.emissions_kg_co2e / 1000) →
        ∀ e ∈ recomputeEmission ft store a,
          e.emissions_metric_tons = e.emissions_kg_co2e / 1000) := by
  intro ft a
  constructor
  · intro r hc
    unfold calcEmission at hc
    rcases Option.map_eq_some'.mp hc with ⟨f, _, hr⟩
    rw [← hr]
    exact ⟨rfl, by simp⟩
  · intro store hstore e he
    unfold recomputeEmission at he
    cases hc : calcEmission ft a with
    | none =>
      rw [hc] at he
      exact hstore e he
    | some r =>
      rw [hc] at he
      unfold upsertEmission at he
      rcases List.mem_cons.mp he with rfl | he'
      · unfold calcEmission at hc
        rcases Option.map_eq_some'.mp hc with ⟨f, _, hr⟩
        rw [← hr]
      · exact hstore e (List.mem_of_mem_filter he')

/-- Witness for C7: the calculator on 100 kWh at factor 0.4 yields
kg_co2e = 40 and metric_tons = 0.04 = 40 / 1000. -/
theorem emission_tons_kg_relation_witness :
    calcEmission ⟨some (4 / 10), fun _ _ => none, fun _ => none, fun _ => none⟩
        ⟨1, ActivitySource.purchasedElectricity 100⟩ =
      some ⟨1, 100 * (4 / 10), 100 * (4 / 10) / 1000, 4 / 10⟩ ∧
    (100 * (4 / 10) / 1000 : ℚ) = 100 * (4 / 10) / 1000 := by
  have h := (emission_tons_kg_relation
    ⟨some (4 / 10), fun _ _ => none, fun _ => none, fun _ => none⟩
    ⟨1, ActivitySource.purchasedElectricity 100⟩).1
    ⟨1, 100 * (4 / 10), 100 * (4 / 10) / 1000, 4 / 10⟩ rfl
  exact ⟨rfl, h.1⟩

/-! ### Waste aggregation

The `waste_metrics` table carries `total_waste_kg`, `recycled_waste_kg`,
`composted_waste_kg` and a `diversion_rate` CHECKed to lie in [0, 1]. -/

/-- A parsed waste record (weight already normalized to kg). -/
structure WasteRecord where
  waste_weight_kg : ℚ
  disposal_method : DisposalMethod
  deriving DecidableEq

/-- A row of the `waste_metrics` table, with the zero-total flag the
spec requires instead of an error. -/
structure WasteMetric where
  total_waste_kg : ℚ
  recycled_waste_kg : ℚ
  composted_waste_kg : ℚ
  diversion_rate : ℚ
  zero_total_flag : Bool
  deriving DecidableEq

/-- Modelled from the spec (section 4.2, Metric Aggregator): waste
`diversion_rate = (recycled_kg + composted_kg) / total_waste_kg`,
clamped to [0, 1]; when `total_waste_kg = 0` the rate is 0 and a flag
is set instead of raising an error. -/
def aggregateWaste (rs : List WasteRecord) : WasteMetric :=
  let total := (rs.map (fun r => r.waste_weight_kg)).sum
  let recycled := ((rs.filter (fun r => r.disposal_method = DisposalMethod.recycle)).map
    (fun r => r.waste_weight_kg)).sum
  let composted := ((rs.filter (fun r => r.disposal_method = DisposalMethod.compost)).map
    (fun r => r.waste_weight_kg)).sum
  if total = 0 then ⟨total, recycled, composted, 0, true⟩
  else ⟨total, recycled, composted, min 1 (max 0 ((recycled + composted) / total)), false⟩

/-- C8: for every waste aggregation, the diversion rate is the clamp to
[0, 1] of `(recycled_kg + composted_kg) / total_waste_kg`; it always
lies in [0, 1]; and when the total is zero it is exactly 0 with the
zero-total flag set (reported, never an error or NaN). -/
theorem waste_diversion_rate_correct :
    ∀ rs : List WasteRecord,
      (0 ≤ (aggregateWaste rs).diversion_rate ∧
        (aggregateWaste rs).diversion_rate ≤ 1) ∧
      ((aggregateWaste rs).total_waste_kg = 0 →
        (aggregateWaste rs).diversion_rate = 0 ∧
        (aggregateWaste rs).zero_total_flag = true) ∧
      ((aggregateWaste rs).total_waste_kg ≠ 0 →
        (aggregateWaste rs).diversion_rate =
          min 1 (max 0 (((aggregateWaste rs).recycled_waste_kg +
            (aggregateWaste rs).composted_waste_kg) /
              (aggregateWaste rs).total_waste_kg)) ∧
        (aggregateWaste rs).zero_total_flag = false) := by
  intro rs
  by_cases ht : (rs.map (fun r => r.waste_weight_kg)).sum = 0
  · have hagg : aggregateWaste rs =
        ⟨(rs.map (fun r => r.waste_weight_kg)).sum,
          ((rs.filter (fun r => r.disposal_method = DisposalMethod.recycle)).map
            (fun r => r.waste_weight_kg)).sum,
          ((rs.filter (fun r => r.disposal_method = DisposalMethod.compost)).map
            (fun r => r.waste_weight_kg)).sum, 0, true⟩ := by
      unfold aggregateWaste
      rw [if_pos ht]
    rw [hagg]
    refine ⟨⟨le_refl 0, by norm_num⟩, fun _ => ⟨rfl, rfl⟩, fun hne => absurd ht hne⟩
  · have hagg : aggregateWaste rs =
        ⟨(rs.map (fun r => r.waste_weight_kg)).sum,
          ((rs.filter (fun r => r.disposal_method = DisposalMethod.recycle)).map
            (fun r => r.waste_weight_kg)).sum,
          ((rs.filter (fun r => r.disposal_method = DisposalMethod.compost)).map
            (fun r => r.waste_weight_kg)).sum,
          min 1 (max 0
            ((((rs.filter (fun r => r.disposal_method = DisposalMethod.recycle)).map
                (fun r => r.waste_weight_kg)).sum +
              ((rs.filter (fun r => r.disposal_method = DisposalMethod.compost)).map
                (fun r => r.waste_weight_kg)).sum) /
              (rs.map (fun r => r.waste_weight_kg)).sum)), false⟩ := by
      unfold aggregateWaste
      rw [if_neg ht]
    rw [hagg]
    refine ⟨⟨le_min (by norm_num) (le_max_left 0 _), min_le_left _ _⟩,
      fun h0 => absurd h0 ht, fun _ => ⟨rfl, rfl⟩⟩

/-- Witness for C8: the empty period has total 0, diversion rate 0 and
the zero-total flag set; a period of 10 kg landfill plus 5 kg recycling
has a nonzero total, so the flag is clear. -/
theorem waste_diversion_rate_correct_witness :
    (aggregateWaste []).diversion_rate = 0 ∧
    (aggregateWaste []).zero_total_flag = true ∧
    (aggregateWaste [⟨10, DisposalMethod.landfill⟩,
      ⟨5, DisposalMethod.recycle⟩]).zero_total_flag = false := by
  have h0 := (waste_diversion_rate_correct []).2.1 (by simp [aggregateWaste])
  have h15 := (waste_diversion_rate_correct
    [⟨10, DisposalMethod.landfill⟩, ⟨5, DisposalMethod.recycle⟩]).2.2
    (by simp [aggregateWaste]; norm_num)
  exact ⟨h0.1, h0.2, h15.2⟩

/-! ### The ghg_totals_by_scope view

Embedded from `documents.sql`:

  CREATE OR REPLACE VIEW ghg_totals_by_scope AS
  SELECT a.scope, COALESCE(SUM(e.emissions_metric_tons), 0)
  FROM activities a
  LEFT JOIN emissions e ON e.activity_id = a.activity_id
  WHERE a.scope IS NOT NULL
  GROUP BY a.scope;

`emissions.activity_id` is UNIQUE, so the left join contributes at most
one emissions row per activity; `find?` models it. -/

/-- A row of the `activities` table as the view sees it. -/
structure ActivityRow where
  activity_id : ℕ
  scope : Option ℕ
  deriving DecidableEq

/-- A row of the `emissions` table as the view sees it. -/
structure EmissionRow where
  activity_id : ℕ
  emissions_metric_tons : ℚ
  deriving DecidableEq

/-- The total the view reports for scope `s`: activities of that scope
(NULL scopes are filtered out by WHERE), each joined to its emissions
row or contributing 0 when none exists (SUM skips the NULL row and
COALESCE turns an empty sum into 0). -/
def scopeTotal (acts : List ActivityRow) (ems : List EmissionRow) (s : ℕ) : ℚ :=
  ((acts.filter (fun a => a.scope = some s)).map (fun a =>
    match ems.find? (fun e => e.activity_id = a.activity_id) with
    | some e => e.emissions_metric_tons
    | none => 0)).sum

/-- C9: in `ghg_totals_by_scope`, a NULL-scope activity (such as water
usage) is excluded from every per-scope total; an activity lacking an
emissions row contributes exactly 0 to its scope's total; and when no
activity of a scope has an emissions row the total is the coalesced 0,
never NULL. -/
theorem ghg_totals_by_scope_correct :
    ∀ (acts : List ActivityRow) (ems : List EmissionRow) (s : ℕ) (a : ActivityRow),
      (a.scope = none → scopeTotal (a :: acts) ems s = scopeTotal acts ems s) ∧
      ((∀ e ∈ ems, e.activity_id ≠ a.activity_id) →
        scopeTotal (a :: acts) ems s = scopeTotal acts ems s) ∧
      ((∀ b ∈ acts, ∀ e ∈ ems, e.activity_id ≠ b.activity_id) →
        scopeTotal acts ems s = 0) := by
  intro acts ems s a
  refine ⟨?_, ?_, ?_⟩
  · intro hnull
    unfold scopeTotal
    rw [List.filter_cons]
    have : (decide (a.scope = some s)) = false := by simp [hnull]
    rw [this]
    simp
  · intro hnone
    unfold scopeTotal
    rw [List.filter_cons]
    by_cases hs : a.scope = some s
    · have hcond : (decide (a.scope = some s)) = true := by simp [hs]
      rw [hcond]
      simp only [if_true, List.map_cons, List.sum_cons]
      have hfind : ems.find? (fun e => e.activity_id = a.activity_id) = none := by
        rw [List.find?_eq_none]
        intro e he
        simpa using hnone e he
      rw [hfind]
      simp
    · have hcond : (decide (a.scope = some s)) = false := by simp [hs]
      rw [hcond]
      simp
  · intro hall
    unfold scopeTotal
    apply List.sum_eq_zero
    intro x hx
    rcases List.mem_map.mp hx with ⟨b, hb, hxb⟩
    have hbacts : b ∈ acts := List.mem_of_mem_filter hb
    have hfind : ems.find? (fun e => e.activity_id = b.activity_id) = none := by
      rw [List.find?_eq_none]
      intro e he
      simpa using hall b hbacts e he
    rw [hfind] at hxb
    exact hxb.symm

/-- Witness for C9 at concrete rows: a water activity (NULL scope) does
not change the scope-3 total, an emissions-less scope-3 activity adds 0,
and a scope with no emissions rows totals 0. -/
theorem ghg_totals_by_scope_correct_witness :
    scopeTotal [⟨1, none⟩, ⟨2, some 3⟩] [⟨2, 5⟩] 3 =
      scopeTotal [⟨2, some 3⟩] [⟨2, 5⟩] 3 ∧
    scopeTotal [⟨7, some 3⟩, ⟨2, some 3⟩] [⟨2, 5⟩] 3 =
      scopeTotal [⟨2, some 3⟩] [⟨2, 5⟩] 3 ∧
    scopeTotal [⟨9, some 1⟩] [⟨2, 5⟩] 1 = 0 := by
  refine ⟨?_, ?_, ?_⟩
  · exact (ghg_totals_by_scope_correct [⟨2, some 3⟩] [⟨2, 5⟩] 3 ⟨1, none⟩).1 rfl
  · exact (ghg_totals_by_scope_correct [⟨2, some 3⟩] [⟨2, 5⟩] 3 ⟨7, some 3⟩).2.1
      (by intro e he; simp at he; simp [he])
  · exact (ghg_totals_by_scope_correct [⟨9, some 1⟩] [⟨2, 5⟩] 1 ⟨0, none⟩).2.2
      (by intro b hb e he; simp at hb he; simp [hb, he])

/-! ### RecommendationCard priority styles

Embedded from `dashboard/src/components/RecommendationCard.tsx`: the
`priorityStyles` object keyed by 'high' / 'medium' / 'low', and the
lookup `priorityStyles[rec.priority] ?? priorityStyles.low`. -/

structure PriorityStyle where
  badge : String
  bar : String
  label : String
  deriving DecidableEq

def priorityStylesHigh : PriorityStyle :=
  ⟨"bg-rose-100 text-rose-600 border border-rose-200", "#f43f5e", "High Priority"⟩

def priorityStylesMedium : PriorityStyle :=
  ⟨"bg-amber-100 text-amber-600 border border-amber-200", "#f59e0b", "Medium Priority"⟩

def priorityStylesLow : PriorityStyle :=
  ⟨"bg-slate-100 text-slate-500 border border-slate-200", "#94a3b8", "Low Priority"⟩

/-- The keyed access `priorityStyles[p]`: defined only for the three
known priority strings (undefined — `none` — otherwise). -/
def priorityStyles (p : String) : Option PriorityStyle :=
  if p = "high" then some priorityStylesHigh
  else if p = "medium" then some priorityStylesMedium
  else if p = "low" then some priorityStylesLow
  else none

/-- The style RecommendationCard actually renders with:
`priorityStyles[rec.priority] ?? priorityStyles.low`. -/
def styleFor (p : String) : PriorityStyle :=
  (priorityStyles p).getD priorityStylesLow

/-- C10: the RecommendationCard style lookup is total — every priority
string renders with one of the three defined styles, and any value
outside 'high' / 'medium' / 'low' falls back to the low-priority style
instead of failing. -/
theorem recommendation_card_style_total :
    ∀ p : String,
      (p ≠ "high" → p ≠ "medium" → p ≠ "low" → styleFor p = priorityStylesLow) ∧
      (styleFor p = priorityStylesHigh ∨ styleFor p = priorityStylesMedium ∨
        styleFor p = priorityStylesLow) := by
  intro p
  constructor
  · intro hh hm hl
    unfold styleFor priorityStyles
    rw [if_neg hh, if_neg hm, if_neg hl]
    rfl
  · unfold styleFor priorityStyles
    by_cases hh : p = "high"
    · rw [if_pos hh]
      exact Or.inl rfl
    · rw [if_neg hh]
      by_cases hm : p = "medium"
      · rw [if_pos hm]
        exact Or.inr (Or.inl rfl)
      · rw [if_neg hm]
        by_cases hl : p = "low"
        · rw [if_pos hl]
          exact Or.inr (Or.inr rfl)
        · rw [if_neg hl]
          exact Or.inr (Or.inr rfl)

/-- Witness for C10: the unknown priority string 'urgent' renders with
the low-priority style. -/
theorem recommendation_card_style_total_witness :
    styleFor "urgent" = priorityStylesLow :=
  (recommendation_card_style_total "urgent").1
    (by decide) (by decide) (by decide)

/-! ### The refresh transaction

Modelled from the spec (sections 5 and 7; the FastAPI snapshot and
refresh code under `dashboard_api/` is not in the tree): a refresh runs
candidate generation, reranking and snapshot building as one staged
computation, each stage fallible, and commits the published snapshot and
the Recommendation set only when every stage succeeds. -/

/-- The reader-visible engine state: the published snapshot and the
persisted Recommendation set. -/
structure EngineState (Snap Rec : Type) where
  snapshot : Option Snap
  recommendations : List Rec
  deriving DecidableEq

/-- The three fallible refresh stages: candidate generation, reranking,
and building the snapshot plus recommendation rows to persist. -/
structure RefreshStages (Input Cand Snap Rec Err : Type) where
  generate : Input → Except Err (List Cand)
  rerank : List Cand → Except Err (List Cand)
  build : List Cand → Except Err (Snap × List Rec)

/-- The staged computation: everything up to — but excluding — the
commit.  It never touches the published state. -/
def stagedCompute {Input Cand Snap Rec Err : Type}
    (stages : RefreshStages Input Cand Snap Rec Err) (input : Input) :
    Except Err (Snap × List Rec) := do
  let cands ← stages.generate input
  let ranked ← stages.rerank cands
  stages.build ranked

/-- Modelled from the spec: run a refresh against the current state;
on any stage failure the state is returned unchanged together with the
reported error, and only on success are the new snapshot and the
wholesale-replaced Recommendation set committed. -/
def runRefresh {Input Cand Snap Rec Err : Type}
    (stages : RefreshStages Input Cand Snap Rec Err) (input : Input)
    (st : EngineState Snap Rec) : EngineState Snap Rec × Except Err Unit :=
  match stagedCompute stages input with
  | Except.error e => (st, Except.error e)
  | Except.ok (snap, recs) => (⟨some snap, recs⟩, Except.ok ())

/-- C1: if any stage of a refresh fails, the whole refresh aborts with
the reported error and the previously published snapshot and previous
Recommendation set are returned unchanged; re-invoking the refresh from
the post-failure state reproduces the first run exactly; and after a
successful refresh a re-invocation is idempotent — it succeeds and
leaves the committed state fixed. -/
theorem refresh_atomic_and_idempotent :
    ∀ {Input Cand Snap Rec Err : Type}
      (stages : RefreshStages Input Cand Snap Rec Err)
      (input : Input) (st : EngineState Snap Rec),
      (∀ e, (runRefresh stages input st).2 = Except.error e →
        (runRefresh stages input st).1 = st) ∧
      (∀ e, (runRefresh stages input st).2 = Except.error e →
        runRefresh stages input (runRefresh stages input st).1 =
          runRefresh stages input st) ∧
      ((runRefresh stages input st).2 = Except.ok () →
        runRefresh stages input (runRefresh stages input st).1 =
          ((runRefresh stages input st).1, Except.ok ())) := by
  intro Input Cand Snap Rec Err stages input st
  cases hres : stagedCompute stages input with
  | error e =>
    have hrun : runRefresh stages input st = (st, Except.error e) := by
      unfold runRefresh
      rw [hres]
    refine ⟨?_, ?_, ?_⟩
    · intro e' _
      rw [hrun]
    · intro e' _
      rw [hrun]
      exact hrun
    · intro hok
      rw [hrun] at hok
      exact absurd hok (by simp)
  | ok p =>
    obtain ⟨snap, recs⟩ := p
    have hrun : runRefresh stages input st = (⟨some snap, recs⟩, Except.ok ()) := by
      unfold runRefresh
      rw [hres]
    have hrun' : ∀ st' : EngineState Snap Rec,
        runRefresh stages input st' = (⟨some snap, recs⟩, Except.ok ()) := by
      intro st'
      unfold runRefresh
      rw [hres]
    refine ⟨?_, ?_, ?_⟩
    · intro e' herr
      rw [hrun] at herr
      exact absurd herr (by simp)
    · intro e' herr
      rw [hrun] at herr
      exact absurd herr (by simp)
    · intro _
      rw [hrun, hrun' ⟨some snap, recs⟩]

/-- Witness for C1: a concrete refresh whose reranking stage throws
leaves the prior state (snapshot 4, one recommendation) untouched and
reports the error, while a concrete all-stages-succeed refresh is
idempotent on its committed state. -/
theorem refresh_atomic_and_idempotent_witness :
    (runRefresh
        (⟨fun _ => Except.ok [1], fun _ => Except.error "boom",
          fun _ => Except.ok (0, [])⟩ :
          RefreshStages ℕ ℕ ℕ ℕ String) 0 ⟨some 4, [9]⟩).1 =
      ⟨some 4, [9]⟩ ∧
    runRefresh
        (⟨fun _ => Except.ok [1], fun c => Except.ok c,
          fun _ => Except.ok (7, [3])⟩ : RefreshStages ℕ ℕ ℕ ℕ String) 0
        (runRefresh
          (⟨fun _ => Except.ok [1], fun c => Except.ok c,
            fun _ => Except.ok (7, [3])⟩ : RefreshStages ℕ ℕ ℕ ℕ String) 0
          ⟨some 4, [9]⟩).1 =
      ((runRefresh
          (⟨fun _ => Except.ok [1], fun c => Except.ok c,
            fun _ => Except.ok (7, [3])⟩ : RefreshStages ℕ ℕ ℕ ℕ String) 0
          ⟨some 4, [9]⟩).1, Except.ok ()) := by
  constructor
  · exact (refresh_atomic_and_idempotent
      (⟨fun _ => Except.ok [1], fun _ => Except.error "boom",
        fun _ => Except.ok (0, [])⟩ : RefreshStages ℕ ℕ ℕ ℕ String) 0
      ⟨some 4, [9]⟩).1 "boom" rfl
  · exact (refresh_atomic_and_idempotent
      (⟨fun _ => Except.ok [1], fun c => Except.ok c,
        fun _ => Except.ok (7, [3])⟩ : RefreshStages ℕ ℕ ℕ ℕ String) 0
      ⟨some 4, [9]⟩).2.2 rfl

end SmePulse
